import Mathlib

/-
Verification of the amp-matching-engine order/account services against their
natural-language specification.

The Go sources are shallowly embedded: Go strings are byte lists (`Bytes`),
Go `int64`/`*big.Int` values are `Int` (with explicit two's-complement
wrapping where int64 overflow matters), `common.Address`/`common.Hash`
values are byte lists / natural numbers, and effectful handlers are pure
functions returning an explicit list of performed actions.
-/

set_option maxRecDepth 10000
set_option maxHeartbeats 2000000

/-- Go strings and Go byte slices are byte sequences; we embed both as lists
of naturals (each < 256 for well-formed data). -/
abbrev Bytes := List Nat

/-- ASCII bytes of a Lean string literal, used to write Go string constants. -/
def asciiBytes (s : String) : Bytes :=
  s.data.map Char.toNat

/-! ## Keccak-256

go-ethereum's `crypto/sha3.NewKeccak256` (legacy Keccak, domain-separation
byte `0x01`, rate 136). Lanes are 64-bit words embedded as `Nat` reduced
modulo `2^64`. This is needed because `common.Address.Hex()` computes an
EIP-55 checksum from the Keccak-256 hash of the lowercase hex address. -/

def mask64 : Nat := 2 ^ 64 - 1

/-- Rotate a 64-bit lane left by `n` (`0 ≤ n < 64`). -/
def rotl64 (x n : Nat) : Nat :=
  ((x <<< n) &&& mask64) ||| (x >>> (64 - n))

/-- Keccak state: 25 lanes, lane (x, y) at index `x + 5 * y`. -/
abbrev KSt := List Nat

def kInit : KSt := List.replicate 25 0

/-- One step of the degree-8 LFSR of FIPS 202 (polynomial
x^8 + x^6 + x^5 + x^4 + 1, byte form 0x71 after the shift): the output bit
and the next state. -/
def lfsrStep (r : Nat) : Bool × Nat :=
  (r % 2 = 1, if 128 ≤ r then (r * 2) % 256 ^^^ 0x71 else r * 2)

/-- The round constant drawn from LFSR state `r`: bit `2^j - 1` of the lane
is the LFSR output at sub-step `j` (j = 0..6). Returns the constant and the
advanced LFSR state. -/
def rcOfRound (r : Nat) : Nat × Nat :=
  (List.range 7).foldl
    (fun q j =>
      let s := lfsrStep q.2
      (if s.1 then q.1 ^^^ (1 <<< (2 ^ j - 1)) else q.1, s.2))
    (0, r)

def rcListAux : Nat → Nat → List Nat
  | 0, _ => []
  | n + 1, r =>
    let p := rcOfRound r
    p.1 :: rcListAux n p.2

/-- The 24 Keccak-f[1600] round constants, generated from LFSR state 1. -/
def keccakRC : List Nat := rcListAux 24 1

/-- The rho-offset walk of FIPS 202: starting at lane (1, 0), step `t`
assigns offset `(t+1)(t+2)/2 mod 64` and moves `(x, y)` to
`(y, (2x + 3y) mod 5)`. Pairs are (lane index `x + 5*y`, offset). -/
def rhoWalk : Nat → Nat → Nat → Nat → List (Nat × Nat)
  | 0, _, _, _ => []
  | n + 1, t, x, y =>
    (x + 5 * y, (t + 1) * (t + 2) / 2 % 64) :: rhoWalk n (t + 1) y ((2 * x + 3 * y) % 5)

/-- Rotation offsets, indexed like the state (`x + 5 * y`); lane 0 rotates
by 0. -/
def rhoOff : List Nat :=
  (List.range 25).map fun i => ((rhoWalk 24 0 1 0).lookup i).getD 0

def kTheta (s : KSt) : KSt :=
  let c := (List.range 5).map fun x =>
    s.getD x 0 ^^^ s.getD (x + 5) 0 ^^^ s.getD (x + 10) 0 ^^^ s.getD (x + 15) 0 ^^^ s.getD (x + 20) 0
  let d := (List.range 5).map fun x =>
    c.getD ((x + 4) % 5) 0 ^^^ rotl64 (c.getD ((x + 1) % 5) 0) 1
  (List.range 25).map fun i => s.getD i 0 ^^^ d.getD (i % 5) 0

/-- Combined rho and pi steps: `B[y, (2x+3y) mod 5] = rotl(A[x, y], r[x, y])`.
Inverting the index map, the source lane of target `(p, q)` is
`x = (3q + p) mod 5`, `y = p`. -/
def kRhoPi (s : KSt) : KSt :=
  (List.range 25).map fun i =>
    let p := i % 5
    let q := i / 5
    let src := (3 * q + p) % 5 + 5 * p
    rotl64 (s.getD src 0) (rhoOff.getD src 0)

def kChi (b : KSt) : KSt :=
  (List.range 25).map fun i =>
    let x := i % 5
    let y := i / 5
    b.getD i 0 ^^^ (((b.getD ((x + 1) % 5 + 5 * y) 0) ^^^ mask64) &&& b.getD ((x + 2) % 5 + 5 * y) 0)

def kRound (s : KSt) (rc : Nat) : KSt :=
  let t := kChi (kRhoPi (kTheta s))
  t.set 0 (t.getD 0 0 ^^^ rc)

def keccakF (s : KSt) : KSt :=
  keccakRC.foldl kRound s

/-- Keccak multi-rate padding with domain-separation byte `0x01` (legacy
Keccak as used by go-ethereum), rate 136 bytes. -/
def keccakPad (msg : Bytes) : Bytes :=
  let r := 136
  let padLen := r - msg.length % r
  if padLen = 1 then msg ++ [0x81]
  else msg ++ [0x01] ++ List.replicate (padLen - 2) 0 ++ [0x80]

/-- Little-endian interpretation of (up to) 8 bytes as a 64-bit lane. -/
def bytesToLane (bs : Bytes) : Nat :=
  bs.reverse.foldl (fun a b => a * 256 + b) 0

/-- XOR a 136-byte block into the first 17 lanes of the state. -/
def kAbsorbBlock (s : KSt) (block : Bytes) : KSt :=
  (List.range 25).map fun i =>
    if i < 17 then s.getD i 0 ^^^ bytesToLane ((block.drop (8 * i)).take 8) else s.getD i 0

/-- Absorb up to `fuel` rate-sized blocks (structural recursion on the block
count so that the kernel can evaluate it). -/
def kAbsorbBlocks : Nat → KSt → Bytes → KSt
  | 0, s, _ => s
  | _ + 1, s, [] => s
  | fuel + 1, s, bs => kAbsorbBlocks fuel (keccakF (kAbsorbBlock s (bs.take 136))) (bs.drop 136)

def kAbsorb (s : KSt) (bs : Bytes) : KSt :=
  kAbsorbBlocks (bs.length / 136 + 1) s bs

def laneBytes (x : Nat) : Bytes :=
  (List.range 8).map fun j => (x >>> (8 * j)) &&& 255

/-- Keccak-256 digest (32 bytes) of a byte message. -/
def keccak256 (msg : Bytes) : Bytes :=
  ((kAbsorb kInit (keccakPad msg)).take 4).flatMap laneBytes

/-! ## Address and big-integer encodings (go-ethereum and math/big)

`common.Address.Hex()` (go-ethereum v1.8, used by this repository) returns an
EIP-55 checksummed hex string: the lowercase hex encoding of the 20 address
bytes, with a letter uppercased exactly when the corresponding nibble of
`keccak256(lowercaseHex)` is greater than 7, prefixed by "0x".
`common.Address.MarshalText` (used by `encoding/json`) instead returns the
plain lowercase "0x" hex form via `hexutil`. `big.Int.String()` is the
decimal representation, with a leading '-' for negative values. -/

/-- Lowercase hex digit as an ASCII byte: 0-9 map to '0'-'9', 10-15 to 'a'-'f'. -/
def lowerHexDigit (n : Nat) : Nat :=
  if n < 10 then 48 + n else 87 + n

/-- `hex.EncodeToString`: two lowercase hex digits per byte, high nibble first. -/
def bytesToLowerHex (bs : Bytes) : Bytes :=
  bs.flatMap fun b => [lowerHexDigit (b / 16), lowerHexDigit (b % 16)]

/-- Nibble `i` of a byte string: high half of byte `i/2` for even `i`, low half
for odd `i` (as in the go-ethereum checksum loop). -/
def nibbleAt (h : Bytes) (i : Nat) : Nat :=
  if i % 2 = 0 then h.getD (i / 2) 0 >>> 4 else h.getD (i / 2) 0 &&& 15

/-- The go-ethereum checksum loop over the lowercase hex characters:
`if result[i] > '9' && hashByte > 7 { result[i] -= 32 }`. -/
def checksumMap (h : Bytes) : Nat → Bytes → Bytes
  | _, [] => []
  | i, c :: cs => (if 57 < c ∧ 7 < nibbleAt h i then c - 32 else c) :: checksumMap h (i + 1) cs

/-- EIP-55 checksummed hex characters of an address (without the "0x" prefix). -/
def addressHexBytes (a : Bytes) : Bytes :=
  let unchecksummed := bytesToLowerHex a
  checksumMap (keccak256 unchecksummed) 0 unchecksummed

/-- `common.Address.Hex()`: "0x" followed by the EIP-55 checksummed hex. -/
def addressHex (a : Bytes) : Bytes :=
  [48, 120] ++ addressHexBytes a

/-- `common.Address.MarshalText` via `hexutil`: plain lowercase "0x" hex. -/
def addressMarshalText (a : Bytes) : Bytes :=
  [48, 120] ++ bytesToLowerHex a

/-- Decimal digits, least significant first, with explicit fuel (structural
recursion so the kernel can evaluate it; `n + 1` fuel always suffices since
each step at least divides by 10). -/
def natDecRevAux : Nat → Nat → Bytes
  | 0, _ => []
  | fuel + 1, n => if n < 10 then [48 + n] else (48 + n % 10) :: natDecRevAux fuel (n / 10)

/-- Decimal digits of a natural number, least significant first. -/
def natDecRev (n : Nat) : Bytes :=
  natDecRevAux (n + 1) n

/-- Decimal digits of a natural number, most significant first. -/
def natDec (n : Nat) : Bytes :=
  (natDecRev n).reverse

/-- `big.Int.String()`: decimal representation, '-' prefix when negative. -/
def bigIntStr (i : Int) : Bytes :=
  if i < 0 then 45 :: natDec i.natAbs else natDec i.toNat

/-- Big-endian fixed-width byte encoding of a natural number. -/
def natBE : Nat → Nat → Bytes
  | 0, _ => []
  | w + 1, n => natBE w (n / 256) ++ [n % 256]

/-- `bson.ObjectId.Hex()`: lowercase hex of the 12 id bytes (ids are embedded
as naturals below 2^96). -/
def objectIdHex (n : Nat) : Bytes :=
  bytesToLowerHex (natBE 12 n)

/-- `time.Time.String()` stand-in; the exact Go layout is irrelevant to the
claims, which never constrain timestamp rendering. Times are embedded as
Unix-second integers. -/
def goTimeString (t : Int) : Bytes :=
  bigIntStr t

/-! ## Account data model (src/types/account.go) -/

/-- The in-memory `types.TokenBalance`: `big.Int` fields embedded as `Int`,
`bson.ObjectId` as `Nat`, `common.Address` as its 20 bytes. -/
structure GoTokenBalance where
  id : Nat
  address : Bytes
  symbol : Bytes
  balance : Int
  allowance : Int
  lockedBalance : Int
deriving DecidableEq, Repr

/-- The in-memory `types.Account`. The Go `map[common.Address]*TokenBalance`
is embedded as an association list (claims are insensitive to map order). -/
structure GoAccount where
  id : Nat
  address : Bytes
  tokenBalances : List (Bytes × GoTokenBalance)
  isBlocked : Bool
  createdAt : Int
  updatedAt : Int
deriving DecidableEq, Repr

/-- `types.TokenBalanceRecord`: the persistent form, all strings. -/
structure TokenBalanceRecord where
  id : Nat
  address : Bytes
  symbol : Bytes
  balance : Bytes
  allowance : Bytes
  lockedBalance : Bytes
deriving DecidableEq, Repr

/-- `types.AccountRecord`: the persistent form of an account. `Account.GetBSON`
leaves `IsBlocked`, `CreatedAt` and `UpdatedAt` at their zero values. -/
structure AccountRecord where
  id : Nat
  address : Bytes
  tokenBalances : List (Bytes × TokenBalanceRecord)
  isBlocked : Bool
  createdAt : Int
  updatedAt : Int
deriving DecidableEq, Repr

/-- `Account.GetBSON` (src/types/account.go lines 57-76): addresses via
`Address.Hex()`, big integers via `big.Int.String()`. -/
def GoAccount.getBSON (a : GoAccount) : AccountRecord :=
  { id := a.id
    address := addressHex a.address
    tokenBalances := a.tokenBalances.map fun p =>
      (addressHex p.1,
       { id := p.2.id
         address := addressHex p.2.address
         symbol := p.2.symbol
         balance := bigIntStr p.2.balance
         allowance := bigIntStr p.2.allowance
         lockedBalance := bigIntStr p.2.lockedBalance })
    isBlocked := false
    createdAt := 0
    updatedAt := 0 }

/-- Entry of the `tokenBalances` JSON object produced by `Account.MarshalJSON`. -/
structure TokenBalanceJSON where
  id : Bytes
  address : Bytes
  symbol : Bytes
  balance : Bytes
  allowance : Bytes
  lockedBalance : Bytes
deriving DecidableEq, Repr

/-- The JSON object produced by `Account.MarshalJSON`, field by field. -/
structure AccountJSON where
  id : Nat
  address : Bytes
  isBlocked : Bool
  createdAt : Bytes
  updatedAt : Bytes
  tokenBalances : List (Bytes × TokenBalanceJSON)
deriving DecidableEq, Repr

/-- `Account.MarshalJSON` (src/types/account.go lines 119-140): the top-level
`address` value is a `common.Address`, serialized by `encoding/json` through
`MarshalText` (lowercase hex); the per-token keys and addresses go through
`Address.Hex()` (EIP-55), ids through `ObjectId.Hex()`, big integers through
`big.Int.String()`. -/
def GoAccount.marshalJSON (a : GoAccount) : AccountJSON :=
  { id := a.id
    address := addressMarshalText a.address
    isBlocked := a.isBlocked
    createdAt := goTimeString a.createdAt
    updatedAt := goTimeString a.updatedAt
    tokenBalances := a.tokenBalances.map fun p =>
      (addressHex p.1,
       { id := objectIdHex p.2.id
         address := addressHex p.2.address
         symbol := p.2.symbol
         balance := bigIntStr p.2.balance
         allowance := bigIntStr p.2.allowance
         lockedBalance := bigIntStr p.2.lockedBalance }) }

/-- A byte string is a 0x-prefixed all-lowercase hex rendering. -/
def isLower0xHex (bs : Bytes) : Bool :=
  bs.take 2 == [48, 120] &&
    (bs.drop 2).all fun c => (48 ≤ c && c ≤ 57) || (97 ≤ c && c ≤ 102)

/-- EIP-55 test address 0x5aaeb6053f3e94c9b9a09f33669435e7ef1beaed. -/
def addr55 : Bytes :=
  [0x5a, 0xae, 0xb6, 0x05, 0x3f, 0x3e, 0x94, 0xc9, 0xb9, 0xa0,
   0x9f, 0x33, 0x66, 0x94, 0x35, 0xe7, 0xef, 0x1b, 0xea, 0xed]

/-- Concrete account used to evaluate the serializers. -/
def acc0 : GoAccount :=
  { id := 1
    address := addr55
    tokenBalances :=
      [(addr55,
        { id := 2, address := addr55, symbol := asciiBytes "AMP"
          balance := 100000, allowance := 100000, lockedBalance := 0 })]
    isBlocked := false
    createdAt := 0
    updatedAt := 0 }

/-! ## Orders and the websocket order endpoint (src/unnamed/part_002) -/

/-- Modelled from the spec: the Order record. types/order.go is not among the
provided sources (only its callers are), so the fields follow section 3 of the
spec — immutable identity fields (maker, exchange, buy/sell tokens and
amounts, nonce, expiry), the content-addressed hash, and the mutable state
fields used by the DAOs (internal id, status, created/updated timestamps). -/
structure Order where
  id : Nat
  userAddress : Bytes
  exchangeAddress : Bytes
  tokenBuy : Bytes
  tokenSell : Bytes
  amountBuy : Int
  amountSell : Int
  nonce : Int
  expires : Int
  hash : Nat
  status : Bytes
  createdAt : Int
  updatedAt : Int
deriving DecidableEq, Repr

/-- Canonical serialization of the immutable order fields (decimal/raw byte
concatenation); input to the order hash. -/
def orderImmutableBytes (o : Order) : Bytes :=
  o.userAddress ++ o.exchangeAddress ++ o.tokenBuy ++ o.tokenSell ++
    bigIntStr o.amountBuy ++ bigIntStr o.amountSell ++ bigIntStr o.nonce ++ bigIntStr o.expires

/-- Value of (the last 32 of) a byte string, as `common.BytesToHash`. -/
def goBytesToHash (bs : Bytes) : Nat :=
  (if bs.length > 32 then bs.drop (bs.length - 32) else bs).foldl (fun a b => a * 256 + b) 0

/-- Modelled from the spec: `Order.ComputeHash` — "deterministic keccak-256
over canonical field serialization", a pure function of the immutable fields
(in particular it does not read the mutable `Hash` field). The exact field
serialization is not in the provided sources; no claim depends on it beyond
hash-of-immutable-fields purity. -/
def computeHash (o : Order) : Nat :=
  goBytesToHash (keccak256 (orderImmutableBytes o))

/-- Modelled from the spec: the `types.OrderCancel` cancel payload. Its Go
definition is not among the provided sources; the endpoint only reads its
`Hash` field. The Go zero value `types.OrderCancel{}` has a zero hash. -/
structure OrderCancel where
  hash : Nat
deriving DecidableEq, Repr

/-- Zero value `&types.OrderCancel{}` left by a failed unmarshal. -/
def ocZero : OrderCancel := { hash := 0 }

/-- The dynamic `data` field of a websocket payload: a JSON document that
either decodes into an `Order`, decodes into an `OrderCancel`, or fails to
decode into the target struct (carrying the decoder's error text). -/
inductive WSData
  | orderData (o : Order)
  | cancelData (oc : OrderCancel)
  | undecodable (err : Bytes)
deriving DecidableEq, Repr

/-- `types.WebSocketPayload` (src/types/account.go lines 260-264). -/
structure WSPayload where
  type : Bytes
  hash : Bytes
  data : WSData
deriving DecidableEq, Repr

/-- `o.UnmarshalJSON(bytes)` on the payload data, for an `Order` target. -/
def decodeOrder : WSData → Except Bytes Order
  | .orderData o => .ok o
  | .cancelData _ => .error (asciiBytes "json: cannot unmarshal into Order")
  | .undecodable e => .error e

/-- `oc.UnmarshalJSON(bytes)` on the payload data, for an `OrderCancel` target. -/
def decodeOrderCancel : WSData → Except Bytes OrderCancel
  | .cancelData oc => .ok oc
  | .orderData _ => .error (asciiBytes "json: cannot unmarshal into OrderCancel")
  | .undecodable e => .error e

/-- Observable effects of the order endpoint handlers: `ws` sends back to the
client connection, registrations in the private-channel hub, invocations of
the order service, and sends into a registered private order channel. -/
inductive WSAction
  | sendOrderError (msg : Bytes) (hash : Option Nat)
  | registerOrderConn (hash : Nat)
  | registerUnsubHandler (hash : Nat)
  | callNewOrder (o : Order)
  | callCancelOrder (oc : OrderCancel)
  | channelSend (chan : Nat) (p : WSPayload)
deriving DecidableEq, Repr

/-- `orderEndpoint.handleNewOrder` (src/unnamed/part_002 lines 256-290).
`orderService.NewOrder` is not among the provided sources; it is passed in as
the function `newOrder`. On a decode failure the handler sends an error and
returns; otherwise it overwrites `o.Hash` with `o.ComputeHash()`, registers
the connection under that hash, and invokes `NewOrder`, sending an error
carrying the (recomputed) hash if that invocation fails. -/
def handleNewOrder (newOrder : Order → Except Bytes Unit) (msg : WSPayload) : List WSAction :=
  match decodeOrder msg.data with
  | .error e => [.sendOrderError e none]
  | .ok o =>
    let o2 := { o with hash := computeHash o }
    .registerOrderConn o2.hash :: .registerUnsubHandler o2.hash :: .callNewOrder o2 ::
      (match newOrder o2 with
       | .error e => [.sendOrderError e (some o2.hash)]
       | .ok _ => [])

/-- Tail of `orderEndpoint.handleCancelOrder` from the connection registration
on: register under `oc.Hash`, invoke `orderService.CancelOrder` (passed in as
`cancelOrder`), send an error if that invocation fails. -/
def cancelRest (cancelOrder : OrderCancel → Except Bytes Unit) (oc : OrderCancel) :
    List WSAction :=
  .registerOrderConn oc.hash :: .registerUnsubHandler oc.hash :: .callCancelOrder oc ::
    (match cancelOrder oc with
     | .error e => [.sendOrderError e (some oc.hash)]
     | .ok _ => [])

/-- `orderEndpoint.handleCancelOrder` (src/unnamed/part_002 lines 293-315).
Note the unmarshal-error branch has no `return` in the source: after sending
the error it falls through and still registers the connection and calls
`orderService.CancelOrder` with the zero-value `OrderCancel`. -/
def handleCancelOrder (cancelOrder : OrderCancel → Except Bytes Unit) (p : WSPayload) :
    List WSAction :=
  match decodeOrderCancel p.data with
  | .error e => .sendOrderError e (some ocZero.hash) :: cancelRest cancelOrder ocZero
  | .ok oc => cancelRest cancelOrder oc

/-- Hex digit value of an ASCII byte, `none` for non-hex bytes. -/
def hexByteVal (c : Nat) : Option Nat :=
  if 48 ≤ c ∧ c ≤ 57 then some (c - 48)
  else if 97 ≤ c ∧ c ≤ 102 then some (c - 87)
  else if 65 ≤ c ∧ c ≤ 70 then some (c - 55)
  else none

/-- `hex.DecodeString` as used through `common.Hex2Bytes`: decode hex pairs,
stopping at the first invalid pair (the error is discarded by `Hex2Bytes`). -/
def hexPairsDecode : Bytes → Bytes
  | a :: b :: rest =>
    match hexByteVal a, hexByteVal b with
    | some x, some y => (16 * x + y) :: hexPairsDecode rest
    | _, _ => []
  | _ => []

/-- `common.FromHex`: strip an optional "0x"/"0X" prefix, left-pad an odd
length with '0', then decode. -/
def goFromHex (s : Bytes) : Bytes :=
  let t := if s.take 2 = [48, 120] ∨ s.take 2 = [48, 88] then s.drop 2 else s
  let t := if t.length % 2 = 1 then 48 :: t else t
  hexPairsDecode t

/-- `common.HexToHash`: the value of the (last 32) decoded bytes. -/
def goHexToHash (s : Bytes) : Nat :=
  goBytesToHash (goFromHex s)

/-- `orderEndpoint.handleNewTrade` (src/unnamed/part_002 lines 246-253): look
up the private order channel registered under the payload's hash; forward the
payload into it when present, do nothing when absent. The hub registry
`ws.GetOrderChannel` is passed in as the map `chans` (hash to channel id). -/
def handleNewTrade (chans : Nat → Option Nat) (msg : WSPayload) : List WSAction :=
  match chans (goHexToHash msg.hash) with
  | some ch => [.channelSend ch msg]
  | none => []

/-- Routing outcome of the `ws` dispatcher's switch on the payload type. -/
inductive OrderRoute
  | newOrder
  | cancelOrder
  | newTrade
  | unhandled
deriving DecidableEq, Repr

/-- The switch in `orderEndpoint.ws` (src/unnamed/part_002 lines 232-241);
the default branch only logs. -/
def orderWsRoute (t : Bytes) : OrderRoute :=
  if t = asciiBytes "NEW_ORDER" then .newOrder
  else if t = asciiBytes "CANCEL_ORDER" then .cancelOrder
  else if t = asciiBytes "NEW_TRADE" then .newTrade
  else .unhandled

/-- `orderEndpoint.ws` (src/unnamed/part_002 lines 224-242): dispatch an
inbound payload on the orders channel to its handler; an unrecognized type is
only logged, performing no action. -/
def orderWsDispatch (newOrder : Order → Except Bytes Unit)
    (cancelOrder : OrderCancel → Except Bytes Unit)
    (chans : Nat → Option Nat) (p : WSPayload) : List WSAction :=
  match orderWsRoute p.type with
  | .newOrder => handleNewOrder newOrder p
  | .cancelOrder => handleCancelOrder cancelOrder p
  | .newTrade => handleNewTrade chans p
  | .unhandled => []

/-! ## OHLCV service (src/unnamed/part_001, OHLCVService.GetOHLCV) -/

/-- Signed 64-bit wraparound, modelling Go `int64` arithmetic. -/
def wrap64 (n : Int) : Int :=
  (n + 2 ^ 63) % 2 ^ 64 - 2 ^ 63

/-- Result of Go's `int64(math.Mod(float64(x), float64(y)))` for integral
arguments in double range: truncated remainder (sign of the dividend); for a
zero divisor `math.Mod` yields NaN, whose int64 conversion on amd64 is the
minimal int64. -/
def goMathMod (x y : Int) : Int :=
  if y = 0 then -(2 ^ 63) else Int.tmod x y

def isLeapYear (y : Int) : Bool :=
  y % 4 == 0 && (y % 100 != 0 || y % 400 == 0)

/-- Day count of month `m` (1-12) of year `y`; this is the value of the Go
expression `time.Date(y, m+1, 0, 0, 0, 0, 0, time.UTC).Day()` in GetOHLCV
(day 0 of the next month normalizes to the last day of month `m`). -/
def daysInMonth (y : Int) (m : Nat) : Int :=
  if m = 2 then (if isLeapYear y then 29 else 28)
  else if m = 4 ∨ m = 6 ∨ m = 9 ∨ m = 11 then 30
  else 31

/-- Day count of year `y`; the value of the Go expression
`time.Date(y+1, 0, 0, ...).Sub(time.Date(y, 0, 0, ...)).Hours() / 24` in
GetOHLCV (both dates normalize to November 30, so the span runs Nov 30 of
`y-1` to Nov 30 of `y` and contains February of year `y`). -/
def daysInYear (y : Int) : Int :=
  if isLeapYear y then 366 else 365

/-- The current wall-clock facts GetOHLCV reads from `time.Now()`:
`UnixNano()/1e9` and the calendar year and month (month 1-12). -/
structure GoNow where
  ts : Int
  year : Int
  month : Nat
deriving DecidableEq, Repr

/-- The `switch unit` of `OHLCVService.GetOHLCV` (src/unnamed/part_001 lines
86-129), producing `(intervalSeconds, modTime)`. The empty unit has an empty
case body (no error, both values stay zero); an unrecognized unit returns the
error "Invalid unit". Multiplications are Go int64 multiplications. -/
def ohlcvIntervalAndMod (unit : Bytes) (duration : Int) (now : GoNow) :
    Except Bytes (Int × Int) :=
  if unit = asciiBytes "sec" then
    let i := duration
    .ok (i, now.ts - goMathMod now.ts i)
  else if unit = asciiBytes "hour" then
    let i := wrap64 (duration * 60 * 60)
    .ok (i, now.ts - goMathMod now.ts i)
  else if unit = asciiBytes "day" then
    let i := wrap64 (duration * 24 * 60 * 60)
    .ok (i, now.ts - goMathMod now.ts i)
  else if unit = asciiBytes "week" then
    let i := wrap64 (duration * 7 * 24 * 60 * 60)
    .ok (i, now.ts - goMathMod now.ts i)
  else if unit = asciiBytes "month" then
    let i := wrap64 (duration * daysInMonth now.year now.month * 7 * 24 * 60 * 60)
    .ok (i, now.ts - goMathMod now.ts i)
  else if unit = asciiBytes "yr" then
    let i := wrap64 (duration * daysInYear now.year * 7 * 24 * 60 * 60)
    .ok (i, now.ts - goMathMod now.ts i)
  else if unit = asciiBytes "" then
    .ok (0, 0)
  else if unit = asciiBytes "min" then
    let i := wrap64 (duration * 60)
    .ok (i, now.ts - goMathMod now.ts i)
  else
    .error (asciiBytes "Invalid unit")

/-- The `createdAt` constraint of the aggregation `$match` stage. -/
inductive TimeMatch
  | ltOnly (lt : Int)
  | range (gte lt : Int)
deriving DecidableEq, Repr

/-- The `len(timeInterval)` branch of GetOHLCV (src/unnamed/part_001 lines
134-140). With no entries, only `$lt modTime` is used. Otherwise the source
reads `timeInterval[1]` and `timeInterval[0]`; a missing element is a Go
index-out-of-range panic, embedded as `none`. -/
def ohlcvTimeMatch (timeInterval : List Int) (modTime : Int) : Option TimeMatch :=
  if timeInterval.length = 0 then some (.ltOnly modTime)
  else
    match timeInterval.get? 1, timeInterval.get? 0 with
    | some t1, some t0 => some (.range t0 t1)
    | _, _ => none

/-- GetOHLCV up to the construction of the aggregation time window: `none`
embeds a runtime panic, `some (.error e)` a returned error, and
`some (.ok (interval, cond))` normal execution. -/
def getOHLCVQuery (unit : Bytes) (duration : Int) (now : GoNow)
    (timeInterval : List Int) : Option (Except Bytes (Int × TimeMatch)) :=
  match ohlcvIntervalAndMod unit duration now with
  | .error e => some (.error e)
  | .ok (i, m) =>
    match ohlcvTimeMatch timeInterval m with
    | none => none
    | some tm => some (.ok (i, tm))

/-! ## Order DAO (src/unnamed/part_000) over a MongoDB collection model -/

/-- `mgo.Index`: the index specification passed to `EnsureIndex`. -/
structure MgoIndex where
  key : List Bytes
  unique : Bool
deriving DecidableEq, Repr

/-- A BSON value as used in index keys. -/
inductive BsonVal
  | oid (n : Nat)
  | str (s : Bytes)
  | missing
deriving DecidableEq, Repr

/-- Fixed-width lowercase hex digits, least significant first. -/
def lowerHexFixedRev : Nat → Nat → Bytes
  | 0, _ => []
  | w + 1, n => lowerHexDigit (n % 16) :: lowerHexFixedRev w (n / 16)

/-- `common.Hash.Hex()`: "0x" plus 64 lowercase hex digits (the stored form
of the order hash, as in the DAO queries `bson.M{"hash": hash.Hex()}`). -/
def hashHex (h : Nat) : Bytes :=
  [48, 120] ++ (lowerHexFixedRev 64 h).reverse

/-- Index-key extraction from a stored order document. -/
def orderKeyVal (d : Order) (k : Bytes) : BsonVal :=
  if k = asciiBytes "_id" then .oid d.id
  else if k = asciiBytes "hash" then .str (hashHex d.hash)
  else .missing

/-- The orders collection: the indexes installed by `EnsureIndex` and the
stored documents. -/
structure OrderColl where
  indexes : List MgoIndex
  docs : List Order
deriving DecidableEq, Repr

/-- Whether inserting `o` would collide with an existing document on some
unique index. -/
def uniqueViolation (c : OrderColl) (o : Order) : Bool :=
  c.indexes.any fun ix =>
    ix.unique && c.docs.any fun d =>
      ix.key.all fun k => decide (orderKeyVal d k = orderKeyVal o k)

/-- Model of a MongoDB insert honoring unique indexes: the insert fails with
a duplicate-key error exactly when a unique index collides, otherwise the
document is appended. -/
def mgoInsert (c : OrderColl) (o : Order) : Except Bytes OrderColl :=
  if uniqueViolation c o then .error (asciiBytes "E11000 duplicate key error")
  else .ok { c with docs := c.docs ++ [o] }

/-- `NewOrderDao` (src/unnamed/part_000 lines 23-36): an empty orders
collection with the unique index on "hash" installed by `EnsureIndex`. -/
def newOrderColl : OrderColl :=
  { indexes := [{ key := [asciiBytes "hash"], unique := true }], docs := [] }

/-- The document `OrderDao.Create` actually inserts: fresh internal id from
`bson.NewObjectId()`, status forced to "NEW", and the two separate
`time.Now()` reads for `CreatedAt` and `UpdatedAt`. -/
def createdOrder (o : Order) (freshId : Nat) (t1 t2 : Int) : Order :=
  { o with id := freshId, status := asciiBytes "NEW", createdAt := t1, updatedAt := t2 }

/-- `OrderDao.Create` (src/unnamed/part_000 lines 39-52). -/
def orderDaoCreate (c : OrderColl) (o : Order) (freshId : Nat) (t1 t2 : Int) :
    Except Bytes OrderColl :=
  mgoInsert c (createdOrder o freshId t1 t2)

/-- Any sequence of `OrderDao.Create` calls (each with its fresh id and its
two clock reads); a failed insert leaves the collection unchanged (the DAO
logs and returns the error). -/
def orderDaoCreateMany (c : OrderColl) : List (Order × Nat × Int × Int) → OrderColl
  | [] => c
  | (o, fid, t1, t2) :: rest =>
    match orderDaoCreate c o fid t1 t2 with
    | .ok c2 => orderDaoCreateMany c2 rest
    | .error _ => orderDaoCreateMany c rest

/-! ## Account service (src/services/account.go) -/

/-- `types.Token` as read back by `TokenDao.GetAll`; only the fields the
account service uses. -/
structure GoToken where
  id : Nat
  contractAddress : Bytes
  symbol : Bytes
deriving DecidableEq, Repr

/-- Modelled from the spec: `AccountDao.GetByAddress` (daos/account.go is not
among the provided sources). The service relies on it returning the stored
account for an address, or the error "NO_ACCOUNT_FOUND" when there is none. -/
def accountGetByAddress (st : List GoAccount) (a : Bytes) : Except Bytes GoAccount :=
  match st.find? (fun acc => decide (acc.address = a)) with
  | some acc => .ok acc
  | none => .error (asciiBytes "NO_ACCOUNT_FOUND")

/-- Modelled from the spec: `AccountDao.Create` persists the given account
(daos/account.go is not among the provided sources). -/
def accountDaoCreate (st : List GoAccount) (acc : GoAccount) : List GoAccount :=
  st ++ [acc]

/-- Go map assignment `m[k] = v` on the association-list embedding. -/
def assocSet (m : List (Bytes × GoTokenBalance)) (k : Bytes) (v : GoTokenBalance) :
    List (Bytes × GoTokenBalance) :=
  match m with
  | [] => [(k, v)]
  | (k2, v2) :: rest =>
    if k2 = k then (k, v) :: rest else (k2, v2) :: assocSet rest k v

/-- The token-balance entry the service builds for each known token. -/
def initialTokenBalance (t : GoToken) : GoTokenBalance :=
  { id := t.id
    address := t.contractAddress
    symbol := t.symbol
    balance := 100000
    allowance := 100000
    lockedBalance := 0 }

/-- `AccountService.Create` (src/services/account.go lines 24-62). `tokens`
is the `TokenDao.GetAll` result. Returns the error (if any) and the account
store after the call. -/
def accountServiceCreate (tokens : List GoToken) (st : List GoAccount)
    (account : GoAccount) : Option Bytes × List GoAccount :=
  match accountGetByAddress st account.address with
  | .ok _ => (some (asciiBytes "ACCOUNT_ALREADY_EXISTS"), st)
  | .error e =>
    if e ≠ asciiBytes "NO_ACCOUNT_FOUND" then (some e, st)
    else
      let account2 := { account with
        isBlocked := false
        tokenBalances := tokens.foldl
          (fun m token => assocSet m token.contractAddress (initialTokenBalance token)) [] }
      (none, accountDaoCreate st account2)

/-! ## Predicates and fixtures used by the claim theorems -/

/-- ASCII lowercasing of a byte (`strings.ToLower` restricted to ASCII). -/
def toLowerByte (b : Nat) : Nat :=
  if 65 ≤ b ∧ b ≤ 90 then b + 32 else b

def toLowerBytes (bs : Bytes) : Bytes :=
  bs.map toLowerByte

/-- The encoding `enc` is the 0x-prefixed hex of the raw bytes up to letter
case: lowercasing it yields exactly the 0x-prefixed lowercase hex. -/
def Is0xHexUpToCase (enc raw : Bytes) : Prop :=
  toLowerBytes enc = [48, 120] ++ bytesToLowerHex raw

/-- A nonempty string of decimal digit characters. -/
def IsDecimalDigits (bs : Bytes) : Prop :=
  bs ≠ [] ∧ ∀ b ∈ bs, 48 ≤ b ∧ b ≤ 57

/-- Every entry is a byte value. -/
def ByteList (bs : Bytes) : Prop :=
  ∀ b ∈ bs, b < 256

/-- A lowercase hex character (decimal digit or 'a'-'f'). -/
def IsLowerHexChar (c : Nat) : Prop :=
  (48 ≤ c ∧ c ≤ 57) ∨ (97 ≤ c ∧ c ≤ 102)

instance (bs : Bytes) : Decidable (IsDecimalDigits bs) := by
  unfold IsDecimalDigits
  infer_instance

instance (bs : Bytes) : Decidable (ByteList bs) := by
  unfold ByteList
  infer_instance

instance (c : Nat) : Decidable (IsLowerHexChar c) := by
  unfold IsLowerHexChar
  infer_instance

/-- Order-service stub accepting every order; stands for an
`orderService.NewOrder` run whose validations all pass. -/
def newOrderAccept : Order → Except Bytes Unit :=
  fun _ => .ok ()

/-- Cancel-service stub accepting every cancel. -/
def cancelAccept : OrderCancel → Except Bytes Unit :=
  fun _ => .ok ()

/-- A concrete order whose client-supplied hash (1) differs from the hash
recomputed over its immutable fields. -/
def o0 : Order :=
  { id := 0
    userAddress := [1, 2, 3]
    exchangeAddress := [4]
    tokenBuy := [5]
    tokenSell := [6]
    amountBuy := 10
    amountSell := 20
    nonce := 1
    expires := 2
    hash := 1
    status := []
    createdAt := 0
    updatedAt := 0 }

/-- A NEW_ORDER payload carrying `o0` with its mismatched supplied hash. -/
def p0 : WSPayload :=
  { type := asciiBytes "NEW_ORDER", hash := [], data := .orderData o0 }

/-- A CANCEL_ORDER payload whose data fails to unmarshal. -/
def pBadCancel : WSPayload :=
  { type := asciiBytes "CANCEL_ORDER"
    hash := []
    data := .undecodable (asciiBytes "invalid character") }

/-- Whether an action is an ERROR payload sent back to the client. -/
def isErrorAction : WSAction → Bool
  | .sendOrderError _ _ => true
  | _ => false

/-- A private-channel registry with one channel (id 7) registered under hash
255. -/
def chans0 : Nat → Option Nat :=
  fun h => if h = 255 then some 7 else none

/-- A NEW_TRADE payload addressed to hash 0xff. -/
def pTrade : WSPayload :=
  { type := asciiBytes "NEW_TRADE", hash := asciiBytes "0xff", data := .undecodable [] }

/-- An inbound payload of unrecognized type. -/
def pPing : WSPayload :=
  { type := asciiBytes "PING", hash := [], data := .undecodable [] }

/-- A concrete clock reading. -/
def now0 : GoNow :=
  { ts := 1700000000, year := 2018, month := 7 }

/-- A single known token. -/
def tokens0 : List GoToken :=
  [{ id := 3, contractAddress := [9, 9], symbol := asciiBytes "AMP" }]

/-- A fresh account as submitted to AccountService.Create (note the input
carries `isBlocked := true` and a junk balance list, both overwritten). -/
def account1 : GoAccount :=
  { id := 4
    address := [1, 2]
    tokenBalances := [([7], { id := 0, address := [7], symbol := []
                              balance := 5, allowance := 5, lockedBalance := 5 })]
    isBlocked := true
    createdAt := 0
    updatedAt := 0 }

/-! ## Sanity checks of the library embeddings -/

/-- Keccak-256 of the empty message (legacy Keccak test vector). -/
theorem keccak256_empty_vector :
    keccak256 [] =
      [0xc5, 0xd2, 0x46, 0x01, 0x86, 0xf7, 0x23, 0x3c, 0x92, 0x7e, 0x7d, 0xb2,
       0xdc, 0xc7, 0x03, 0xc0, 0xe5, 0x00, 0xb6, 0x53, 0xca, 0x82, 0x27, 0x3b,
       0x7b, 0xfa, 0xd8, 0x04, 0x5d, 0x85, 0xa4, 0x70] := by
  decide

/-- The EIP-55 reference checksum vector, reproduced by the embedded
`Address.Hex()`. -/
theorem addressHex_eip55_vector :
    addressHex addr55 = asciiBytes "0x5aAeb6053F3E94C9b9A09f33669435E7Ef1BeAed" := by
  decide

/-! ## Claim C1 -/

/-- Claim C1, as stated, is false at a concrete input: the NEW_ORDER payload
`p0` carries supplied hash 1, different from the recomputed hash, yet the
handler emits no ERROR and forwards the order to `orderService.NewOrder` —
with the supplied hash silently overwritten by the recomputed one (the
source line `o.Hash = o.ComputeHash()` replaces rather than compares). -/
theorem c1_hash_replaced_counterexample :
    o0.hash ≠ computeHash o0 ∧
    handleNewOrder newOrderAccept p0 =
      [.registerOrderConn (computeHash o0), .registerUnsubHandler (computeHash o0),
       .callNewOrder { o0 with hash := computeHash o0 }] ∧
    (handleNewOrder newOrderAccept p0).any isErrorAction = false := by
  refine ⟨by decide, by decide, by decide⟩

/-- Claim C1 (amended): the hash-validation step replaces the client-supplied
hash with the recomputed hash instead of comparing: the handler always
forwards the order to `NewOrder` with `hash := computeHash o`, behaves
identically whatever hash the payload supplied, and sends an ERROR only when
`NewOrder` itself fails — never because of a hash mismatch. -/
theorem c1_hash_replaced_not_compared (newOrder : Order → Except Bytes Unit)
    (t h : Bytes) (o : Order) :
    WSAction.callNewOrder { o with hash := computeHash o } ∈
      handleNewOrder newOrder ⟨t, h, .orderData o⟩ ∧
    handleNewOrder newOrder ⟨t, h, .orderData o⟩ =
      handleNewOrder newOrder ⟨t, h, .orderData { o with hash := computeHash o }⟩ ∧
    (∀ e hh, WSAction.sendOrderError e hh ∈ handleNewOrder newOrder ⟨t, h, .orderData o⟩ →
      newOrder { o with hash := computeHash o } = .error e) := by
  refine ⟨?_, rfl, ?_⟩
  · simp only [handleNewOrder, decodeOrder]
    cases newOrder { o with hash := computeHash o } <;> simp
  · intro e hh hmem
    simp only [handleNewOrder, decodeOrder] at hmem
    cases h2 : newOrder { o with hash := computeHash o } with
    | error e2 =>
      rw [h2] at hmem
      simp at hmem
      rw [hmem.1]
    | ok u =>
      rw [h2] at hmem
      simp at hmem

/-- Witness for the amended C1 theorem at the concrete payload `p0`. -/
theorem c1_hash_replaced_not_compared_witness :
    WSAction.callNewOrder { o0 with hash := computeHash o0 } ∈
      handleNewOrder newOrderAccept p0 :=
  (c1_hash_replaced_not_compared newOrderAccept (asciiBytes "NEW_ORDER") [] o0).1

/-! ## Claim C2 -/

/-- Claim C2: evaluation of the handler at a CANCEL_ORDER payload whose data
fails to unmarshal. The client does receive the ERROR payload, but — the
unmarshal-error branch of the source having no `return` — the handler then
registers the connection under the zero hash and still invokes
`orderService.CancelOrder` with the zero-value `OrderCancel`, contradicting
the claim (and spec section 7, which promises no engine involvement). -/
theorem c2_malformed_cancel_still_invokes_service :
    handleCancelOrder cancelAccept pBadCancel =
      [.sendOrderError (asciiBytes "invalid character") (some 0),
       .registerOrderConn 0, .registerUnsubHandler 0, .callCancelOrder ocZero] ∧
    WSAction.callCancelOrder ocZero ∈ handleCancelOrder cancelAccept pBadCancel := by
  refine ⟨by decide, by decide⟩

/-! ## Claim C3 -/

theorem lowerHexDigit_isLowerHex : ∀ n < 16, IsLowerHexChar (lowerHexDigit n) := by
  decide

theorem mem_bytesToLowerHex (bs : Bytes) (h : ByteList bs) :
    ∀ c ∈ bytesToLowerHex bs, IsLowerHexChar c := by
  induction bs with
  | nil => simp [bytesToLowerHex]
  | cons b rest ih =>
    intro c hc
    have hb : b < 256 := h b (by simp)
    have hrest : ByteList rest := fun x hx => h x (by simp [hx])
    simp only [bytesToLowerHex, List.flatMap_cons] at hc
    rcases List.mem_append.1 hc with h1 | h2
    · simp only [List.mem_cons, List.mem_singleton] at h1
      rcases h1 with h1 | h1 | h1
      · exact h1 ▸ lowerHexDigit_isLowerHex _ (by omega)
      · exact h1 ▸ lowerHexDigit_isLowerHex _ (by omega)
      · exact absurd h1 (by simp)
    · exact ih hrest c h2

theorem toLowerBytes_checksumMap (h : Bytes) (cs : Bytes) :
    ∀ i : Nat, (∀ c ∈ cs, IsLowerHexChar c) → toLowerBytes (checksumMap h i cs) = cs := by
  induction cs with
  | nil => intro i _; rfl
  | cons c rest ih =>
    intro i hall
    have hc := hall c (by simp)
    have hrest : ∀ x ∈ rest, IsLowerHexChar x := fun x hx => hall x (by simp [hx])
    simp only [checksumMap, toLowerBytes, List.map_cons]
    rw [show List.map toLowerByte (checksumMap h (i + 1) rest) = rest from ih (i + 1) hrest]
    congr 1
    by_cases hcase : 57 < c ∧ 7 < nibbleAt h i
    · rw [if_pos hcase]
      have hrange : 97 ≤ c ∧ c ≤ 102 := by
        rcases hc with ⟨h1, h2⟩ | ⟨h1, h2⟩ <;> omega
      simp only [toLowerByte]
      rw [if_pos (by omega)]
      omega
    · rw [if_neg hcase]
      simp only [toLowerByte]
      rcases hc with ⟨h1, h2⟩ | ⟨h1, h2⟩ <;> rw [if_neg (by omega)]

theorem is0xHexUpToCase_addressHex (a : Bytes) (h : ByteList a) :
    Is0xHexUpToCase (addressHex a) a := by
  unfold Is0xHexUpToCase addressHex addressHexBytes
  show List.map toLowerByte ([48, 120] ++ _) = _
  rw [List.map_append]
  congr 1
  exact toLowerBytes_checksumMap _ _ 0 (mem_bytesToLowerHex a h)

theorem toLowerBytes_of_lowerHex (bs : Bytes) (h : ∀ c ∈ bs, IsLowerHexChar c) :
    toLowerBytes bs = bs := by
  have he : ∀ c ∈ bs, toLowerByte c = c := by
    intro c hc
    rcases h c hc with ⟨h1, h2⟩ | ⟨h1, h2⟩ <;> (unfold toLowerByte; rw [if_neg (by omega)])
  calc bs.map toLowerByte = bs.map id := List.map_congr_left he
  _ = bs := List.map_id bs

theorem is0xHexUpToCase_marshalText (a : Bytes) (h : ByteList a) :
    Is0xHexUpToCase (addressMarshalText a) a := by
  unfold Is0xHexUpToCase addressMarshalText
  show List.map toLowerByte ([48, 120] ++ _) = _
  rw [List.map_append]
  congr 1
  exact toLowerBytes_of_lowerHex _ (mem_bytesToLowerHex a h)

theorem natDecRevAux_digits : ∀ fuel n : Nat, ∀ b ∈ natDecRevAux fuel n, 48 ≤ b ∧ b ≤ 57 := by
  intro fuel
  induction fuel with
  | zero => simp [natDecRevAux]
  | succ f ih =>
    intro n b hb
    simp only [natDecRevAux] at hb
    split at hb
    · simp only [List.mem_singleton] at hb
      omega
    · rcases List.mem_cons.1 hb with h1 | h1
      · omega
      · exact ih _ b h1

theorem natDecRev_ne_nil (n : Nat) : natDecRev n ≠ [] := by
  unfold natDecRev natDecRevAux
  split <;> simp

theorem isDecimalDigits_natDec (n : Nat) : IsDecimalDigits (natDec n) := by
  constructor
  · unfold natDec
    simpa [List.reverse_eq_nil_iff] using natDecRev_ne_nil n
  · intro b hb
    exact natDecRevAux_digits _ _ b (List.mem_reverse.1 hb)

theorem isDecimalDigits_bigIntStr (i : Int) (h : 0 ≤ i) : IsDecimalDigits (bigIntStr i) := by
  unfold bigIntStr
  rw [if_neg (by omega)]
  exact isDecimalDigits_natDec _

/-- Claim C3, as stated, is false at a concrete input: `Account.GetBSON`
encodes the account address of `acc0` through `Address.Hex()`, whose EIP-55
checksum capitalizes letters — the persisted record's address field equals
the mixed-case checksummed form, not 0x-prefixed lowercase hexadecimal. -/
theorem c3_addresses_checksummed_counterexample :
    isLower0xHex (GoAccount.getBSON acc0).address = false ∧
    (GoAccount.getBSON acc0).address =
      asciiBytes "0x5aAeb6053F3E94C9b9A09f33669435E7Ef1BeAed" := by
  refine ⟨by decide, by decide⟩

/-- Claim C3 (amended): every 256-bit integer field (balance, allowance,
locked balance) is encoded as a decimal string in both `GetBSON` and
`MarshalJSON`; every Ethereum address field is encoded as 0x-prefixed
hexadecimal of the address bytes — but in EIP-55 checksum case (lowercase
only up to the checksum's capitalization) for all fields that go through
`Address.Hex()`; only the top-level JSON `address` field, serialized through
`Address.MarshalText`, is plain lowercase. -/
theorem c3_record_and_json_encodings (a : GoAccount)
    (haddr : ByteList a.address)
    (hkeys : ∀ p ∈ a.tokenBalances, ByteList p.1 ∧ ByteList p.2.address)
    (hnn : ∀ p ∈ a.tokenBalances,
      0 ≤ p.2.balance ∧ 0 ≤ p.2.allowance ∧ 0 ≤ p.2.lockedBalance) :
    Is0xHexUpToCase (GoAccount.getBSON a).address a.address ∧
    (∀ q ∈ (GoAccount.getBSON a).tokenBalances, ∃ p, p ∈ a.tokenBalances ∧
      Is0xHexUpToCase q.1 p.1 ∧ Is0xHexUpToCase q.2.address p.2.address ∧
      IsDecimalDigits q.2.balance ∧ IsDecimalDigits q.2.allowance ∧
      IsDecimalDigits q.2.lockedBalance) ∧
    (GoAccount.marshalJSON a).address = [48, 120] ++ bytesToLowerHex a.address ∧
    (∀ q ∈ (GoAccount.marshalJSON a).tokenBalances, ∃ p, p ∈ a.tokenBalances ∧
      Is0xHexUpToCase q.1 p.1 ∧ Is0xHexUpToCase q.2.address p.2.address ∧
      IsDecimalDigits q.2.balance ∧ IsDecimalDigits q.2.allowance ∧
      IsDecimalDigits q.2.lockedBalance) := by
  refine ⟨is0xHexUpToCase_addressHex _ haddr, ?_, rfl, ?_⟩
  · intro q hq
    simp only [GoAccount.getBSON] at hq
    rcases List.mem_map.1 hq with ⟨p, hp, rfl⟩
    exact ⟨p, hp, is0xHexUpToCase_addressHex _ (hkeys p hp).1,
      is0xHexUpToCase_addressHex _ (hkeys p hp).2,
      isDecimalDigits_bigIntStr _ (hnn p hp).1,
      isDecimalDigits_bigIntStr _ (hnn p hp).2.1,
      isDecimalDigits_bigIntStr _ (hnn p hp).2.2⟩
  · intro q hq
    simp only [GoAccount.marshalJSON] at hq
    rcases List.mem_map.1 hq with ⟨p, hp, rfl⟩
    exact ⟨p, hp, is0xHexUpToCase_addressHex _ (hkeys p hp).1,
      is0xHexUpToCase_addressHex _ (hkeys p hp).2,
      isDecimalDigits_bigIntStr _ (hnn p hp).1,
      isDecimalDigits_bigIntStr _ (hnn p hp).2.1,
      isDecimalDigits_bigIntStr _ (hnn p hp).2.2⟩

/-- Witness for the amended C3 theorem at the concrete account `acc0`. -/
theorem c3_record_and_json_encodings_witness :
    ByteList acc0.address ∧ Is0xHexUpToCase (GoAccount.getBSON acc0).address acc0.address :=
  ⟨by decide,
   (c3_record_and_json_encodings acc0 (by decide) (by decide) (by decide)).1⟩

/-! ## Claim C4 -/

theorem wrap64_eq_self (n : Int) (h : n.natAbs < 2 ^ 63) : wrap64 n = n := by
  unfold wrap64
  simp only [show (2 : Int) ^ 64 = 18446744073709551616 by norm_num,
    show (2 : Int) ^ 63 = 9223372036854775808 by norm_num] at *
  omega

/-- Claim C4: for every duration `d`, GetOHLCV computes the "month" bucket
interval as `d * (days in the current month) * 7 * 24 * 60 * 60` and the
"yr" interval as `d * (days in the current year) * 7 * 24 * 60 * 60` (as
int64 products, exact whenever they fit in an int64) — the month/year
interval math indeed multiplies a day count by an extra factor of 7. -/
theorem c4_month_yr_weeks_factor (d : Int) (now : GoNow)
    (hm : (d * daysInMonth now.year now.month * 7 * 24 * 60 * 60).natAbs < 2 ^ 63)
    (hy : (d * daysInYear now.year * 7 * 24 * 60 * 60).natAbs < 2 ^ 63) :
    (∃ m, ohlcvIntervalAndMod (asciiBytes "month") d now =
      .ok (d * daysInMonth now.year now.month * 7 * 24 * 60 * 60, m)) ∧
    (∃ m, ohlcvIntervalAndMod (asciiBytes "yr") d now =
      .ok (d * daysInYear now.year * 7 * 24 * 60 * 60, m)) := by
  constructor
  · refine ⟨now.ts - goMathMod now.ts
      (wrap64 (d * daysInMonth now.year now.month * 7 * 24 * 60 * 60)), ?_⟩
    have e1 : ohlcvIntervalAndMod (asciiBytes "month") d now =
        .ok (wrap64 (d * daysInMonth now.year now.month * 7 * 24 * 60 * 60),
          now.ts - goMathMod now.ts
            (wrap64 (d * daysInMonth now.year now.month * 7 * 24 * 60 * 60))) := rfl
    rw [e1, wrap64_eq_self _ hm]
  · refine ⟨now.ts - goMathMod now.ts
      (wrap64 (d * daysInYear now.year * 7 * 24 * 60 * 60)), ?_⟩
    have e1 : ohlcvIntervalAndMod (asciiBytes "yr") d now =
        .ok (wrap64 (d * daysInYear now.year * 7 * 24 * 60 * 60),
          now.ts - goMathMod now.ts
            (wrap64 (d * daysInYear now.year * 7 * 24 * 60 * 60))) := rfl
    rw [e1, wrap64_eq_self _ hy]

/-- Witness for the C4 theorem at duration 3 in July 2018. -/
theorem c4_month_yr_weeks_factor_witness :
    ((3 : Int) * daysInMonth now0.year now0.month * 7 * 24 * 60 * 60).natAbs < 2 ^ 63 ∧
    (∃ m, ohlcvIntervalAndMod (asciiBytes "month") 3 now0 =
      .ok ((3 : Int) * daysInMonth now0.year now0.month * 7 * 24 * 60 * 60, m)) :=
  ⟨by decide, (c4_month_yr_weeks_factor 3 now0 (by decide) (by decide)).1⟩

/-! ## Claim C5 -/

theorem orderDaoCreate_ok_iff (c : OrderColl) (o : Order) (fid : Nat) (t1 t2 : Int)
    (c2 : OrderColl) :
    orderDaoCreate c o fid t1 t2 = .ok c2 ↔
      uniqueViolation c (createdOrder o fid t1 t2) = false ∧
      c2 = { c with docs := c.docs ++ [createdOrder o fid t1 t2] } := by
  unfold orderDaoCreate mgoInsert
  by_cases hv : uniqueViolation c (createdOrder o fid t1 t2) = true
  · rw [if_pos hv]
    simp [hv]
  · rw [if_neg hv]
    simp only [Bool.not_eq_true] at hv
    simp [hv, eq_comm]

/-- Claim C5: whatever order is passed to `OrderDao.Create`, the persisted
document is the input with the internal id replaced by the freshly generated
one, the status forced to NEW (regardless of the input's status field), and
`CreatedAt`/`UpdatedAt` set to the two `time.Now()` readings taken during
creation. -/
theorem c5_create_persists_new_status (c : OrderColl) (o : Order) (fid : Nat)
    (t1 t2 : Int) (c2 : OrderColl) (h : orderDaoCreate c o fid t1 t2 = .ok c2) :
    c2.docs = c.docs ++ [createdOrder o fid t1 t2] ∧
    (createdOrder o fid t1 t2).status = asciiBytes "NEW" ∧
    (createdOrder o fid t1 t2).id = fid ∧
    (createdOrder o fid t1 t2).createdAt = t1 ∧
    (createdOrder o fid t1 t2).updatedAt = t2 ∧
    (createdOrder o fid t1 t2).hash = o.hash := by
  have h2 := (orderDaoCreate_ok_iff c o fid t1 t2 c2).1 h
  exact ⟨by rw [h2.2], rfl, rfl, rfl, rfl, rfl⟩

/-- Witness for the C5 theorem: creating `o0` (whose input status is empty)
in a fresh collection. -/
theorem c5_create_persists_new_status_witness :
    orderDaoCreate newOrderColl o0 1 5 6 =
      .ok { newOrderColl with docs := [createdOrder o0 1 5 6] } ∧
    (createdOrder o0 1 5 6).status = asciiBytes "NEW" :=
  ⟨rfl,
   (c5_create_persists_new_status newOrderColl o0 1 5 6
     { newOrderColl with docs := [createdOrder o0 1 5 6] } rfl).2.1⟩

/-! ## Claim C6 -/

theorem orderKeyVal_hash (d : Order) :
    orderKeyVal d (asciiBytes "hash") = .str (hashHex d.hash) := by
  unfold orderKeyVal
  rw [if_neg (by decide), if_pos rfl]

theorem uniqueViolation_of_hash_mem (c : OrderColl) (o2 : Order)
    (hidx : c.indexes = newOrderColl.indexes)
    (d : Order) (hd : d ∈ c.docs) (hh : d.hash = o2.hash) :
    uniqueViolation c o2 = true := by
  unfold uniqueViolation
  rw [hidx]
  apply List.any_eq_true.2
  refine ⟨{ key := [asciiBytes "hash"], unique := true }, by simp [newOrderColl], ?_⟩
  simp only [Bool.true_and]
  apply List.any_eq_true.2
  refine ⟨d, hd, ?_⟩
  apply List.all_eq_true.2
  intro k hk
  simp only [List.mem_singleton] at hk
  subst hk
  simp [orderKeyVal_hash, hh]

theorem orderDaoCreate_error_of_violation (c : OrderColl) (o : Order) (fid : Nat)
    (t1 t2 : Int) (hv : uniqueViolation c (createdOrder o fid t1 t2) = true) :
    orderDaoCreate c o fid t1 t2 = .error (asciiBytes "E11000 duplicate key error") := by
  unfold orderDaoCreate mgoInsert
  rw [if_pos hv]

theorem createMany_indexes (ops : List (Order × Nat × Int × Int)) (c : OrderColl) :
    (orderDaoCreateMany c ops).indexes = c.indexes := by
  induction ops generalizing c with
  | nil => rfl
  | cons op rest ih =>
    obtain ⟨o, fid, t1, t2⟩ := op
    unfold orderDaoCreateMany
    cases hc : orderDaoCreate c o fid t1 t2 with
    | error e => exact ih c
    | ok c2 =>
      have h2 := (orderDaoCreate_ok_iff c o fid t1 t2 c2).1 hc
      rw [ih c2, h2.2]

theorem createMany_hash_inj (ops : List (Order × Nat × Int × Int)) (c : OrderColl)
    (hidx : c.indexes = newOrderColl.indexes)
    (hinv : ∀ d1 ∈ c.docs, ∀ d2 ∈ c.docs, d1.hash = d2.hash → d1 = d2) :
    ∀ d1 ∈ (orderDaoCreateMany c ops).docs, ∀ d2 ∈ (orderDaoCreateMany c ops).docs,
      d1.hash = d2.hash → d1 = d2 := by
  induction ops generalizing c with
  | nil => exact hinv
  | cons op rest ih =>
    obtain ⟨o, fid, t1, t2⟩ := op
    unfold orderDaoCreateMany
    cases hc : orderDaoCreate c o fid t1 t2 with
    | error e => exact ih c hidx hinv
    | ok c2 =>
      have h2 := (orderDaoCreate_ok_iff c o fid t1 t2 c2).1 hc
      apply ih c2
      · rw [h2.2]
        exact hidx
      · rw [h2.2]
        intro d1 hd1 d2 hd2 hhash
        simp only [List.mem_append, List.mem_singleton] at hd1 hd2
        rcases hd1 with hd1 | rfl <;> rcases hd2 with hd2 | rfl
        · exact hinv d1 hd1 d2 hd2 hhash
        · exact absurd (uniqueViolation_of_hash_mem c _ hidx d1 hd1 hhash) (by simp [h2.1])
        · exact absurd (uniqueViolation_of_hash_mem c _ hidx d2 hd2 hhash.symm)
            (by simp [h2.1])
        · rfl

/-- Claim C6: starting from the collection `NewOrderDao` builds (unique index
on "hash" installed), after any sequence of `OrderDao.Create` calls equal
hashes imply the same stored record, and creating a further order whose hash
is already stored fails with the duplicate-key error. -/
theorem c6_hash_unique_key (ops : List (Order × Nat × Int × Int)) :
    (∀ d1 ∈ (orderDaoCreateMany newOrderColl ops).docs,
      ∀ d2 ∈ (orderDaoCreateMany newOrderColl ops).docs, d1.hash = d2.hash → d1 = d2) ∧
    (∀ (o : Order) (fid : Nat) (t1 t2 : Int),
      ∀ d ∈ (orderDaoCreateMany newOrderColl ops).docs, d.hash = o.hash →
      orderDaoCreate (orderDaoCreateMany newOrderColl ops) o fid t1 t2 =
        .error (asciiBytes "E11000 duplicate key error")) := by
  constructor
  · exact createMany_hash_inj ops newOrderColl rfl
      (by intro d1 h1; simp [newOrderColl] at h1)
  · intro o fid t1 t2 d hd hh
    exact orderDaoCreate_error_of_violation _ _ _ _ _
      (uniqueViolation_of_hash_mem _ _ (createMany_indexes ops newOrderColl) d hd hh)

/-- Witness for the C6 theorem: after creating `o0`, a second create with the
same hash fails with the duplicate-key error. -/
theorem c6_hash_unique_key_witness :
    createdOrder o0 1 5 6 ∈ (orderDaoCreateMany newOrderColl [(o0, 1, 5, 6)]).docs ∧
    (createdOrder o0 1 5 6).hash = o0.hash ∧
    orderDaoCreate (orderDaoCreateMany newOrderColl [(o0, 1, 5, 6)]) o0 2 7 8 =
      .error (asciiBytes "E11000 duplicate key error") :=
  ⟨by decide, rfl,
   (c6_hash_unique_key [(o0, 1, 5, 6)]).2 o0 2 7 8 (createdOrder o0 1 5 6) (by decide) rfl⟩

/-! ## Claim C7 -/

/-- Claim C7: the orders-channel dispatcher routes exactly the payload types
NEW_ORDER, CANCEL_ORDER and NEW_TRADE to their handlers; any other type
reaches no service handler and produces no action. -/
theorem c7_dispatch_exact_types (newOrder : Order → Except Bytes Unit)
    (cancelOrder : OrderCancel → Except Bytes Unit)
    (chans : Nat → Option Nat) (p : WSPayload) :
    (p.type = asciiBytes "NEW_ORDER" →
      orderWsDispatch newOrder cancelOrder chans p = handleNewOrder newOrder p) ∧
    (p.type = asciiBytes "CANCEL_ORDER" →
      orderWsDispatch newOrder cancelOrder chans p = handleCancelOrder cancelOrder p) ∧
    (p.type = asciiBytes "NEW_TRADE" →
      orderWsDispatch newOrder cancelOrder chans p = handleNewTrade chans p) ∧
    (p.type ≠ asciiBytes "NEW_ORDER" → p.type ≠ asciiBytes "CANCEL_ORDER" →
      p.type ≠ asciiBytes "NEW_TRADE" →
      orderWsDispatch newOrder cancelOrder chans p = []) := by
  refine ⟨?_, ?_, ?_, ?_⟩
  · intro h
    unfold orderWsDispatch orderWsRoute
    rw [h, if_pos rfl]
  · intro h
    unfold orderWsDispatch orderWsRoute
    rw [h, if_neg (by decide), if_pos rfl]
  · intro h
    unfold orderWsDispatch orderWsRoute
    rw [h, if_neg (by decide), if_neg (by decide), if_pos rfl]
  · intro h1 h2 h3
    unfold orderWsDispatch orderWsRoute
    rw [if_neg h1, if_neg h2, if_neg h3]

/-- Witness for the C7 theorem: a payload of type PING is dropped without any
action. -/
theorem c7_dispatch_exact_types_witness :
    pPing.type ≠ asciiBytes "NEW_ORDER" ∧
    orderWsDispatch newOrderAccept cancelAccept chans0 pPing = [] :=
  ⟨by decide,
   (c7_dispatch_exact_types newOrderAccept cancelAccept chans0 pPing).2.2.2
     (by decide) (by decide) (by decide)⟩

/-! ## Claim C8 -/

/-- Claim C8: `handleNewTrade` forwards the payload into the private order
channel registered under the payload's hash when one is registered, and
performs no action when none is. -/
theorem c8_new_trade_forwarding (chans : Nat → Option Nat) (p : WSPayload) :
    (∀ ch, chans (goHexToHash p.hash) = some ch →
      handleNewTrade chans p = [.channelSend ch p]) ∧
    (chans (goHexToHash p.hash) = none → handleNewTrade chans p = []) := by
  constructor
  · intro ch h
    unfold handleNewTrade
    rw [h]
  · intro h
    unfold handleNewTrade
    rw [h]

/-- Witness for the C8 theorem: hash "0xff" parses to 255, where `chans0`
registers channel 7; with an empty registry nothing happens. -/
theorem c8_new_trade_forwarding_witness :
    chans0 (goHexToHash pTrade.hash) = some 7 ∧
    handleNewTrade chans0 pTrade = [.channelSend 7 pTrade] :=
  ⟨by decide, (c8_new_trade_forwarding chans0 pTrade).1 7 (by decide)⟩

/-! ## Claim C9 -/

theorem assocSet_fresh (m : List (Bytes × GoTokenBalance)) (k : Bytes) (v : GoTokenBalance)
    (h : ∀ p ∈ m, p.1 ≠ k) : assocSet m k v = m ++ [(k, v)] := by
  induction m with
  | nil => rfl
  | cons q rest ih =>
    have hq : q.1 ≠ k := h q (by simp)
    obtain ⟨k2, v2⟩ := q
    simp only [assocSet]
    rw [if_neg hq, ih fun p hp => h p (by simp [hp])]
    rfl

theorem foldl_assocSet_tokens (tokens : List GoToken) (m : List (Bytes × GoTokenBalance))
    (hdisj : ∀ t ∈ tokens, ∀ p ∈ m, p.1 ≠ t.contractAddress)
    (hnodup : (tokens.map GoToken.contractAddress).Nodup) :
    tokens.foldl
        (fun m2 token => assocSet m2 token.contractAddress (initialTokenBalance token)) m =
      m ++ tokens.map fun t => (t.contractAddress, initialTokenBalance t) := by
  induction tokens generalizing m with
  | nil => simp
  | cons t rest ih =>
    have hn : (∀ x ∈ rest, ¬x.contractAddress = t.contractAddress) ∧
        (List.map GoToken.contractAddress rest).Nodup := by simpa using hnodup
    simp only [List.foldl_cons]
    rw [assocSet_fresh m t.contractAddress _ fun p hp => hdisj t (by simp) p hp]
    rw [ih (m ++ [(t.contractAddress, initialTokenBalance t)]) ?hd hn.2]
    · simp
    case hd =>
      intro t2 ht2 p hp
      rcases List.mem_append.1 hp with h1 | h1
      · exact hdisj t2 (by simp [ht2]) p h1
      · simp only [List.mem_singleton] at h1
        subst h1
        intro he
        exact hn.1 t2 ht2 he.symm

/-- Claim C9: for an address that already has a stored account,
`AccountService.Create` returns ACCOUNT_ALREADY_EXISTS and leaves the store
unchanged; otherwise it persists the account with `IsBlocked := false` and
one token-balance entry per known token, each initialized with balance
100000, allowance 100000 and locked balance 0. -/
theorem c9_account_service_create (tokens : List GoToken) (st : List GoAccount)
    (account : GoAccount)
    (hnodup : (tokens.map GoToken.contractAddress).Nodup) :
    ((∃ acc ∈ st, acc.address = account.address) →
      accountServiceCreate tokens st account =
        (some (asciiBytes "ACCOUNT_ALREADY_EXISTS"), st)) ∧
    ((∀ acc ∈ st, acc.address ≠ account.address) →
      accountServiceCreate tokens st account =
        (none, st ++ [{ account with
          isBlocked := false
          tokenBalances := tokens.map fun t =>
            (t.contractAddress,
             { id := t.id, address := t.contractAddress, symbol := t.symbol
               balance := 100000, allowance := 100000, lockedBalance := 0 }) }])) := by
  constructor
  · rintro ⟨acc, hacc, he⟩
    have hsome : (st.find? fun a2 => decide (a2.address = account.address)).isSome :=
      List.find?_isSome.2 ⟨acc, hacc, by simp [he]⟩
    obtain ⟨a2, ha2⟩ := Option.isSome_iff_exists.1 hsome
    have hget : accountGetByAddress st account.address = .ok a2 := by
      unfold accountGetByAddress
      rw [ha2]
    simp only [accountServiceCreate, hget]
  · intro hall
    have hget : accountGetByAddress st account.address =
        .error (asciiBytes "NO_ACCOUNT_FOUND") := by
      unfold accountGetByAddress
      rw [List.find?_eq_none.2 fun x hx => by simp [hall x hx]]
    simp only [accountServiceCreate, hget]
    rw [if_neg (by simp)]
    rw [foldl_assocSet_tokens tokens [] (by simp) hnodup]
    simp [accountDaoCreate, initialTokenBalance]

/-- Witness for the C9 theorem: creating a fresh account against one known
token in an empty store. -/
theorem c9_account_service_create_witness :
    (tokens0.map GoToken.contractAddress).Nodup ∧
    accountServiceCreate tokens0 [] account1 =
      (none, [{ account1 with
        isBlocked := false
        tokenBalances := tokens0.map fun t =>
          (t.contractAddress,
           { id := t.id, address := t.contractAddress, symbol := t.symbol
             balance := 100000, allowance := 100000, lockedBalance := 0 }) }]) :=
  ⟨by decide,
   (c9_account_service_create tokens0 [] account1 (by decide)).2
     (by intro acc hacc; simp at hacc)⟩

/-! ## Claim C10 -/

/-- Claim C10: evaluating GetOHLCV's time-window construction. With zero or
two timeInterval arguments it evaluates normally; with exactly one (a single
from-timestamp, as the function's own doc comment sanctions) the source reads
`timeInterval[1]`, an index out of range — a runtime panic, embedded as
`none`. -/
theorem c10_single_timestamp_out_of_range :
    getOHLCVQuery (asciiBytes "min") 1 now0 [] =
      some (.ok (60, .ltOnly 1699999980)) ∧
    (∀ t0 : Int, getOHLCVQuery (asciiBytes "min") 1 now0 [t0] = none) ∧
    getOHLCVQuery (asciiBytes "min") 1 now0 [1000, 2000] =
      some (.ok (60, .range 1000 2000)) := by
  refine ⟨rfl, fun t0 => rfl, rfl⟩
